import Mathlib

/-! Verification of the Linux guest-agent data-retrieval core
(`GuestAgentLinux2.py`): memory-statistics sampling with cumulative
counter deltas, package inventory, network-interface enumeration,
disk usage and the command dispatcher, shallowly embedded in Lean.

Python exceptions are modelled with an explicit error component;
Python 2 `time.time()` floats are modelled as rationals; Python ints
as `Int`; `int()` applied to a float truncates toward zero (`pytrunc`).
-/

namespace GuestAgent

/-- Python exception kinds raised by this module. -/
inductive PyErr where
  | valueError
  | zeroDivisionError
  | ioError
  | osError
  | unboundLocalError
  deriving DecidableEq, Repr

/-- A whitespace-separated token of a pseudo-file line: either text that
`int()` parses to an integer, or text on which `int()` raises
`ValueError`. -/
inductive Token where
  | num (n : ℤ)
  | junk
  deriving DecidableEq, Repr

/-- Python `int(value)` on a token: the integer, or `ValueError`. -/
def pyint : Token → Except PyErr ℤ
  | .num n => .ok n
  | .junk => .error .valueError

/-- One line of a key/value pseudo-file, as seen by
`(key, value) = line.strip().split()[0:2]`: either fewer than two
tokens (tuple unpacking raises `ValueError`) or a key plus its value
token (tokens past the second are dropped by the slice `[0:2]`). -/
inductive Line where
  | short
  | kv (key : String) (value : Token)
  deriving DecidableEq, Repr

/-- The four tracked cumulative counters of `_get_vmstat` /
`_init_vmstat`. -/
inductive Counter where
  | swap_in
  | swap_out
  | pageflt
  | majflt
  deriving DecidableEq, Repr

/-- The `self.vmstat` dictionary: previous/current sample timestamps
and, per tracked counter, the `_prev` and `_cur` entries (`none` models
Python `None` before the first sample). -/
structure VmSt where
  ts_prev : ℚ
  ts_cur : ℚ
  prev : Counter → Option ℤ
  cur : Counter → Option ℤ

/-- `self.vmstat[name + '_prev'] = v`. -/
def VmSt.setPrev (s : VmSt) (c : Counter) (v : Option ℤ) : VmSt :=
  { s with prev := fun c' => if c' = c then v else s.prev c' }

/-- `self.vmstat[name + '_cur'] = v`. -/
def VmSt.setCur (s : VmSt) (c : Counter) (v : Option ℤ) : VmSt :=
  { s with cur := fun c' => if c' = c then v else s.cur c' }

/-- The `self.memStats` dictionary: static memory fields written by
`_get_meminfo` and per-counter rates written by `_get_vmstat`. -/
structure MemSt where
  mem_total : ℤ
  mem_unused : ℤ
  mem_free : ℤ
  mem_buffers : ℤ
  mem_cached : ℤ
  swap_usage : ℤ
  swap_total : ℤ
  swap_in : ℤ
  swap_out : ℤ
  pageflt : ℤ
  majflt : ℤ
  deriving DecidableEq, Repr

/-- `self.memStats[name]` for a tracked counter name. -/
def MemSt.rate (m : MemSt) : Counter → ℤ
  | .swap_in => m.swap_in
  | .swap_out => m.swap_out
  | .pageflt => m.pageflt
  | .majflt => m.majflt

/-- `self.memStats[name] = v` for a tracked counter name. -/
def MemSt.setRate (m : MemSt) : Counter → ℤ → MemSt
  | .swap_in, v => { m with swap_in := v }
  | .swap_out, v => { m with swap_out := v }
  | .pageflt, v => { m with pageflt := v }
  | .majflt, v => { m with majflt := v }

/-- Python `int()` applied to a rational (float): truncation toward
zero. -/
def pytrunc (q : ℚ) : ℤ := if q < 0 then ⌈q⌉ else ⌊q⌋

/-- Python float division: raises `ZeroDivisionError` on a zero
divisor. -/
def pydiv (a b : ℚ) : Except PyErr ℚ :=
  if b = 0 then .error .zeroDivisionError else .ok (a / b)

/-- The `fields` mapping of `_get_vmstat`: `/proc/vmstat` keys to
tracked counter names. -/
def vmstatFields (key : String) : Option Counter :=
  if key = "pswpin" then some .swap_in
  else if key = "pswpout" then some .swap_out
  else if key = "pgfault" then some .pageflt
  else if key = "pgmajfault" then some .majflt
  else none

/-- One iteration of the `_get_vmstat` loop.  The source mutates
`self.vmstat` in place and only then evaluates the expressions that can
raise (`int(value)`, the division), so the mutated state is returned
together with the exception, if any: first `name_prev` is overwritten
with `name_cur`, then `name_cur` with the parsed value, then the
`is None` bootstrap fix-up runs, and finally the rate is stored. -/
def vmstatLine (interval : ℚ) (st : VmSt × MemSt) (l : Line) :
    (VmSt × MemSt) × Option PyErr :=
  match l with
  | .short => (st, some .valueError)
  | .kv key val =>
    match vmstatFields key with
    | none => (st, none)
    | some name =>
      let vm1 := st.1.setPrev name (st.1.cur name)
      match pyint val with
      | .error e => ((vm1, st.2), some e)
      | .ok v =>
        let p : ℤ :=
          match vm1.prev name with
          | none => v
          | some p0 => p0
        let vm2 := (vm1.setCur name (some v)).setPrev name (some p)
        match pydiv ((v : ℚ) - (p : ℚ)) interval with
        | .error e => ((vm2, st.2), some e)
        | .ok q => ((vm2, st.2.setRate name (pytrunc q)), none)

/-- The `_get_vmstat` loop over the lines of `/proc/vmstat`, stopping
at the first raised exception (which propagates with the state mutated
so far). -/
def vmstatLines (interval : ℚ) :
    List Line → VmSt × MemSt → (VmSt × MemSt) × Option PyErr
  | [], st => (st, none)
  | l :: ls, st =>
    match vmstatLine interval st l with
    | (st', none) => vmstatLines interval ls st'
    | (st', some e) => (st', some e)

/-- Result of `_get_vmstat`: the mutated state and the exception that
escaped it, if any. -/
structure VmResult where
  vm : VmSt
  mem : MemSt
  err : Option PyErr

/-- `LinuxDataRetriver._get_vmstat`.  `now` is `time.time()`; `src` is
the attempt to open and read `/proc/vmstat` (the open happens after the
timestamp bookkeeping).  The interval is computed from the stored
previous timestamp, which is then advanced to `now` before any line is
read. -/
def get_vmstat (now : ℚ) (src : Except PyErr (List Line)) (vm : VmSt)
    (mem : MemSt) : VmResult :=
  let vm1 : VmSt := { vm with ts_cur := now }
  let interval := vm1.ts_cur - vm1.ts_prev
  let vm2 : VmSt := { vm1 with ts_prev := vm1.ts_cur }
  match src with
  | .error e => ⟨vm2, mem, some e⟩
  | .ok lines =>
    match vmstatLines interval lines (vm2, mem) with
    | (st, err) => ⟨st.1, st.2, err⟩

/-- `LinuxDataRetriver._init_vmstat`: the previous timestamp starts at
the current time and every counter entry starts as `None` (the
`timestamp_cur` key is first written by `_get_vmstat`; it is
initialised here only to make the record total). -/
def init_vmstat (now : ℚ) : VmSt :=
  { ts_prev := now, ts_cur := now, prev := fun _ => none,
    cur := fun _ => none }

/-- The keys of the local `fields` dictionary of `_get_meminfo`. -/
def meminfoKeys : List String :=
  ["MemTotal:", "MemFree:", "Buffers:", "Cached:", "SwapFree:",
   "SwapTotal:"]

/-- The `_get_meminfo` loop: accumulates the local `fields` dictionary
and the `free` sum over the lines, raising on the first line that is
too short or whose tracked value `int()` cannot parse. -/
def meminfoLoop :
    List Line → (String → ℤ) → ℤ → Except PyErr ((String → ℤ) × ℤ)
  | [], fields, free => .ok (fields, free)
  | l :: ls, fields, free =>
    match l with
    | .short => .error .valueError
    | .kv key val =>
      if key ∈ meminfoKeys then
        match pyint val with
        | .error e => .error e
        | .ok v =>
          meminfoLoop ls (fun k => if k = key then v else fields k)
            (if key ∈ ["MemFree:", "Buffers:", "Cached:"] then free + v
             else free)
      else meminfoLoop ls fields free

/-- `LinuxDataRetriver._get_meminfo`: on success overwrite the static
memory fields of `memStats`; an exception leaves `memStats` untouched,
because the loop mutates only the locals `fields` and `free` and the
`memStats` assignments all come after the loop. -/
def get_meminfo (src : Except PyErr (List Line)) (mem : MemSt) :
    MemSt × Option PyErr :=
  match src with
  | .error e => (mem, some e)
  | .ok lines =>
    match meminfoLoop lines (fun _ => 0) 0 with
    | .error e => (mem, some e)
    | .ok (fields, free) =>
      ({ mem with
          mem_total := fields "MemTotal:"
          mem_unused := fields "MemFree:"
          mem_free := free
          mem_buffers := fields "Buffers:"
          mem_cached := fields "Cached:"
          swap_usage := fields "SwapTotal:" - fields "SwapFree:"
          swap_total := fields "SwapTotal:" }, none)

/-- `LinuxDataRetriver.getMemoryStats`: run `_get_meminfo` then
`_get_vmstat` under a bare `except` that logs and falls through to
`return self.memStats`; an exception in `_get_meminfo` therefore skips
`_get_vmstat` entirely, and no exception ever reaches the caller. -/
def getMemoryStats (now : ℚ)
    (meminfoSrc vmstatSrc : Except PyErr (List Line)) (vm : VmSt)
    (mem : MemSt) : VmSt × MemSt :=
  match get_meminfo meminfoSrc mem with
  | (mem', some _) => (vm, mem')
  | (mem', none) =>
    let r := get_vmstat now vmstatSrc vm mem'
    (r.vm, r.mem)

/-! Basic simp lemmas about the state updates. -/

@[simp] lemma VmSt.setPrev_prev (s : VmSt) (c : Counter) (v : Option ℤ)
    (c' : Counter) :
    (s.setPrev c v).prev c' = if c' = c then v else s.prev c' := rfl

@[simp] lemma VmSt.setPrev_cur (s : VmSt) (c : Counter) (v : Option ℤ) :
    (s.setPrev c v).cur = s.cur := rfl

@[simp] lemma VmSt.setPrev_ts_prev (s : VmSt) (c : Counter)
    (v : Option ℤ) : (s.setPrev c v).ts_prev = s.ts_prev := rfl

@[simp] lemma VmSt.setPrev_ts_cur (s : VmSt) (c : Counter)
    (v : Option ℤ) : (s.setPrev c v).ts_cur = s.ts_cur := rfl

@[simp] lemma VmSt.setCur_cur (s : VmSt) (c : Counter) (v : Option ℤ)
    (c' : Counter) :
    (s.setCur c v).cur c' = if c' = c then v else s.cur c' := rfl

@[simp] lemma VmSt.setCur_prev (s : VmSt) (c : Counter) (v : Option ℤ) :
    (s.setCur c v).prev = s.prev := rfl

@[simp] lemma VmSt.setCur_ts_prev (s : VmSt) (c : Counter)
    (v : Option ℤ) : (s.setCur c v).ts_prev = s.ts_prev := rfl

@[simp] lemma VmSt.setCur_ts_cur (s : VmSt) (c : Counter)
    (v : Option ℤ) : (s.setCur c v).ts_cur = s.ts_cur := rfl

@[simp] lemma MemSt.rate_setRate (m : MemSt) (c : Counter) (v : ℤ)
    (c' : Counter) :
    (m.setRate c v).rate c' = if c' = c then v else m.rate c' := by
  cases c <;> cases c' <;> simp [MemSt.setRate, MemSt.rate]

lemma pytrunc_of_nonneg {q : ℚ} (h : 0 ≤ q) : pytrunc q = ⌊q⌋ := by
  unfold pytrunc
  rw [if_neg (not_lt.mpr h)]

lemma pytrunc_intCast (n : ℤ) : pytrunc (n : ℚ) = n := by
  rcases lt_or_le (n : ℚ) 0 with h | h
  · unfold pytrunc
    rw [if_pos h, Int.ceil_intCast]
  · unfold pytrunc
    rw [if_neg (not_lt.mpr h), Int.floor_intCast]

/-! Frame lemmas for the sampling loops. -/

/-- A single `_get_vmstat` iteration does not touch the timestamps. -/
lemma vmstatLine_ts (interval : ℚ) (st : VmSt × MemSt) (l : Line) :
    ((vmstatLine interval st l).1.1.ts_prev = st.1.ts_prev ∧
      (vmstatLine interval st l).1.1.ts_cur = st.1.ts_cur) := by
  cases l with
  | short => exact ⟨rfl, rfl⟩
  | kv key val =>
    cases hf : vmstatFields key with
    | none => simp [vmstatLine, hf]
    | some name =>
      cases val with
      | junk => simp [vmstatLine, hf, pyint]
      | num v =>
        by_cases hi : interval = 0 <;>
          simp [vmstatLine, hf, pyint, pydiv, hi]

/-- The `_get_vmstat` loop does not touch the timestamps. -/
lemma vmstatLines_ts (interval : ℚ) :
    ∀ (lines : List Line) (st : VmSt × MemSt),
      ((vmstatLines interval lines st).1.1.ts_prev = st.1.ts_prev ∧
        (vmstatLines interval lines st).1.1.ts_cur = st.1.ts_cur)
  | [], _ => ⟨rfl, rfl⟩
  | l :: ls, st => by
    have hts := vmstatLine_ts interval st l
    cases hl : vmstatLine interval st l with
    | mk st' err =>
      rw [hl] at hts
      cases err with
      | none =>
        have ih := vmstatLines_ts interval ls st'
        rw [show vmstatLines interval (l :: ls) st =
              vmstatLines interval ls st' by
            simp [vmstatLines, hl]]
        exact ⟨ih.1.trans hts.1, ih.2.trans hts.2⟩
      | some e =>
        rw [show vmstatLines interval (l :: ls) st = (st', some e) by
            simp [vmstatLines, hl]]
        exact hts

/-- With a zero interval, no rate assignment of the `_get_vmstat` loop
ever completes: the division raises `ZeroDivisionError` first, so
`memStats` is left untouched. -/
lemma vmstatLines_zero_mem :
    ∀ (lines : List Line) (st : VmSt × MemSt),
      (vmstatLines 0 lines st).1.2 = st.2
  | [], _ => rfl
  | l :: ls, st => by
    cases l with
    | short => rfl
    | kv key val =>
      cases hf : vmstatFields key with
      | none =>
        rw [show vmstatLines 0 (Line.kv key val :: ls) st =
              vmstatLines 0 ls st by
            simp [vmstatLines, vmstatLine, hf]]
        exact vmstatLines_zero_mem ls st
      | some name =>
        cases val with
        | junk => simp [vmstatLines, vmstatLine, hf, pyint]
        | num v => simp [vmstatLines, vmstatLine, hf, pyint, pydiv]

/-- `_get_meminfo` never touches the per-counter rate fields of
`memStats`. -/
lemma get_meminfo_rate (src : Except PyErr (List Line)) (mem : MemSt)
    (c : Counter) : (get_meminfo src mem).1.rate c = mem.rate c := by
  cases src with
  | error e => rfl
  | ok lines =>
    cases h : meminfoLoop lines (fun _ => 0) 0 with
    | error e => simp [get_meminfo, h]
    | ok res =>
      obtain ⟨fields, free⟩ := res
      cases c <;> simp [get_meminfo, h, MemSt.rate]

/-- When `_get_meminfo` raises, `memStats` is returned unchanged. -/
lemma get_meminfo_err (src : Except PyErr (List Line)) (mem : MemSt)
    (e : PyErr) (h : (get_meminfo src mem).2 = some e) :
    get_meminfo src mem = (mem, some e) := by
  cases src with
  | error e' =>
    have h2 : (get_meminfo (Except.error e') mem).2 = some e' := rfl
    rw [h2] at h
    injection h with h
    subst h
    rfl
  | ok lines =>
    cases hl : meminfoLoop lines (fun _ => 0) 0 with
    | error e' =>
      have h2 : (get_meminfo (Except.ok lines) mem).2 = some e' := by
        simp [get_meminfo, hl]
      rw [h2] at h
      injection h with h
      subst h
      simp [get_meminfo, hl]
    | ok res =>
      obtain ⟨fields, free⟩ := res
      have h2 : (get_meminfo (Except.ok lines) mem).2 = none := by
        simp [get_meminfo, hl]
      rw [h2] at h
      exact absurd h (by simp)

/-- Unfolding of `_get_vmstat` on a successfully opened source. -/
lemma get_vmstat_ok (now : ℚ) (lines : List Line) (vm : VmSt)
    (mem : MemSt) :
    get_vmstat now (.ok lines) vm mem =
      ⟨(vmstatLines (now - vm.ts_prev) lines
          ({ vm with ts_cur := now, ts_prev := now }, mem)).1.1,
        (vmstatLines (now - vm.ts_prev) lines
          ({ vm with ts_cur := now, ts_prev := now }, mem)).1.2,
        (vmstatLines (now - vm.ts_prev) lines
          ({ vm with ts_cur := now, ts_prev := now }, mem)).2⟩ := rfl

/-- A concrete pre-sample state: one second after a sample that stored
counter value `0` for every tracked counter. -/
def vm0 : VmSt :=
  { ts_prev := 1, ts_cur := 1, prev := fun _ => some 0,
    cur := fun _ => some 0 }

/-- A concrete `memStats` dictionary with every entry `0` (so every
previously reported rate is `0`). -/
def mem0 : MemSt :=
  { mem_total := 0, mem_unused := 0, mem_free := 0, mem_buffers := 0,
    mem_cached := 0, swap_usage := 0, swap_total := 0, swap_in := 0,
    swap_out := 0, pageflt := 0, majflt := 0 }

/-- C2, amended part: when the elapsed interval is exactly zero, the
sample behaves as a no-update tick at the interface: whatever the two
sources contain, every per-counter rate returned by `getMemoryStats` is
the previously reported one (internally the division by the zero
interval raises `ZeroDivisionError` before any rate is stored, and the
bare `except` of `getMemoryStats` catches it, so no error reaches the
caller). -/
theorem getMemoryStats_zero_interval_reuses_rates (vm : VmSt)
    (mem : MemSt) (meminfoSrc vmstatSrc : Except PyErr (List Line))
    (c : Counter) :
    ((getMemoryStats vm.ts_prev meminfoSrc vmstatSrc vm mem).2).rate c =
      mem.rate c := by
  rcases hg : get_meminfo meminfoSrc mem with ⟨mem', err⟩
  have hr : mem'.rate c = mem.rate c := by
    have h := get_meminfo_rate meminfoSrc mem c
    rw [hg] at h
    exact h
  cases err with
  | some e =>
    rw [show getMemoryStats vm.ts_prev meminfoSrc vmstatSrc vm mem =
          (vm, mem') by simp [getMemoryStats, hg]]
    exact hr
  | none =>
    rw [show getMemoryStats vm.ts_prev meminfoSrc vmstatSrc vm mem =
          ((get_vmstat vm.ts_prev vmstatSrc vm mem').vm,
            (get_vmstat vm.ts_prev vmstatSrc vm mem').mem) by
        simp [getMemoryStats, hg]]
    cases vmstatSrc with
    | error e => exact hr
    | ok lines =>
      rw [get_vmstat_ok]
      have hz : (vm.ts_prev : ℚ) - vm.ts_prev = 0 := sub_self _
      rw [hz, vmstatLines_zero_mem lines _]
      exact hr

/-- C2, counterexample to the claim as stated: with a negative elapsed
interval (clock stepped backwards, `now = 0` against a stored previous
timestamp of `1`) the sampler does not reuse the last reported rate:
the last reported `swap_in` rate was `0`, but the sample divides by the
negative interval and reports `-10`. -/
theorem getMemoryStats_negative_interval_updates_rates :
    mem0.swap_in = 0 ∧
    ((getMemoryStats 0 (.ok [])
        (.ok [.kv "pswpin" (.num 10)]) vm0 mem0).2).swap_in = -10 := by
  refine ⟨rfl, ?_⟩
  have hne : ((0 : ℚ) - 1) ≠ 0 := by norm_num
  simp only [getMemoryStats, get_meminfo, meminfoLoop, get_vmstat_ok,
    vmstatLines, vmstatLine, vmstatFields, pyint, pydiv, MemSt.setRate,
    VmSt.setPrev, VmSt.setCur, vm0, mem0]
  norm_num [hne]
  rw [show (-10 : ℚ) = ((-10 : ℤ) : ℚ) from by norm_num, pytrunc_intCast]

/-- C3, amended: a parse failure of a single line of the
static-memory source aborts the whole memory-stats sample: no field of
`memStats` is updated (not even fields whose lines parse), `_get_vmstat`
is not run, and the state is returned to the caller unchanged, the
exception being caught inside `getMemoryStats`. -/
theorem getMemoryStats_meminfo_failure_aborts_sample (now : ℚ)
    (msrc vsrc : Except PyErr (List Line)) (vm : VmSt) (mem : MemSt)
    (e : PyErr) (h : (get_meminfo msrc mem).2 = some e) :
    getMemoryStats now msrc vsrc vm mem = (vm, mem) := by
  have hm := get_meminfo_err msrc mem e h
  simp [getMemoryStats, hm]

/-- Witness for the amended C3 theorem at a concrete input: a meminfo
source whose only line is too short to unpack. -/
theorem getMemoryStats_meminfo_failure_aborts_sample_witness :
    (get_meminfo (.ok [Line.short]) mem0).2 = some .valueError ∧
    getMemoryStats 5 (.ok [Line.short]) (.ok []) vm0 mem0 =
      (vm0, mem0) :=
  ⟨by simp [get_meminfo, meminfoLoop],
    getMemoryStats_meminfo_failure_aborts_sample 5 (.ok [Line.short])
      (.ok []) vm0 mem0 .valueError (by simp [get_meminfo, meminfoLoop])⟩

/-- C3, counterexample to the claim as stated: with the meminfo source
`[short line, "MemFree: 100"]` the perfectly parseable `MemFree:` field
is not updated in that sample (`mem_unused` stays `0`), although the
same field alone would have been updated to `100`. -/
theorem getMemoryStats_parse_failure_skips_parseable_fields :
    ((getMemoryStats 5 (.ok [Line.short, .kv "MemFree:" (.num 100)])
        (.ok []) vm0 mem0).2).mem_unused = 0 ∧
    ((getMemoryStats 5 (.ok [.kv "MemFree:" (.num 100)])
        (.ok []) vm0 mem0).2).mem_unused = 100 := by
  constructor <;>
    simp [getMemoryStats, get_meminfo, meminfoLoop, meminfoKeys,
      get_vmstat_ok, vmstatLines, pyint, vm0, mem0]

/-- The vmstat state produced by `_init_vmstat` at time `0`. -/
def vmN : VmSt := init_vmstat 0

/-- C10, counterexample to the claim as stated: on a source whose first
line is a tracked counter and whose second line is malformed, the
sample fails with `ValueError`, yet the first counter's stored previous
value has changed (`None` before, `5` after): not every counter's
stored previous value survives a failed sample. -/
theorem get_vmstat_failed_sample_mutates_processed_counters :
    (get_vmstat 1 (.ok [.kv "pswpin" (.num 5), Line.short]) vmN
        mem0).err = some .valueError ∧
    vmN.prev .swap_in = none ∧
    (get_vmstat 1 (.ok [.kv "pswpin" (.num 5), Line.short]) vmN
        mem0).vm.prev .swap_in = some 5 := by
  have hne : ((1 : ℚ) - 0) ≠ 0 := by norm_num
  refine ⟨?_, rfl, ?_⟩ <;>
    simp [get_vmstat_ok, vmstatLines, vmstatLine, vmstatFields, pyint,
      pydiv, MemSt.setRate, VmSt.setPrev, VmSt.setCur, vmN, init_vmstat,
      mem0, hne]

/-- C10, amended: every `_get_vmstat` invocation advances the stored
previous timestamp to the current time before any counter line is read,
so a failed sample's interval is consumed; when the read itself fails
(the source cannot be opened), every counter's stored previous and
current values and all reported rates are unchanged and the exception
propagates.  (When parsing fails mid-file, counters whose lines were
already processed have been updated — see the counterexample.) -/
theorem get_vmstat_timestamp_advances_before_read (now : ℚ) (vm : VmSt)
    (mem : MemSt) (e : PyErr) :
    (∀ src, (get_vmstat now src vm mem).vm.ts_prev = now) ∧
    (get_vmstat now (.error e) vm mem).vm.prev = vm.prev ∧
    (get_vmstat now (.error e) vm mem).vm.cur = vm.cur ∧
    (get_vmstat now (.error e) vm mem).mem = mem ∧
    (get_vmstat now (.error e) vm mem).err = some e := by
  refine ⟨?_, rfl, rfl, rfl, rfl⟩
  intro src
  cases src with
  | error e' => rfl
  | ok lines =>
    rw [get_vmstat_ok]
    have h := (vmstatLines_ts (now - vm.ts_prev) lines
      ({ vm with ts_cur := now, ts_prev := now }, mem)).1
    simpa using h

/-! The cumulative-counter delta computation on a well-formed sample
(claim C1). -/

/-- The canonical well-formed content of `/proc/vmstat`, restricted to
the four tracked keys, carrying current counter values `a b c d`. -/
def vmstatFile (a b c d : ℤ) : List Line :=
  [.kv "pswpin" (.num a), .kv "pswpout" (.num b),
   .kv "pgfault" (.num c), .kv "pgmajfault" (.num d)]

/-- The raw value each tracked counter carries in
`vmstatFile a b c d`. -/
def counterVal (a b c d : ℤ) : Counter → ℤ
  | .swap_in => a
  | .swap_out => b
  | .pageflt => c
  | .majflt => d

/-- One memory-stats sample over the canonical vmstat content. -/
def sampleOnce (now : ℚ) (vm : VmSt) (mem : MemSt) (a b c d : ℤ) :
    VmResult :=
  get_vmstat now (.ok (vmstatFile a b c d)) vm mem

lemma vmstatFields_pswpin : vmstatFields "pswpin" = some .swap_in := by
  simp [vmstatFields]

lemma vmstatFields_pswpout : vmstatFields "pswpout" = some .swap_out := by
  simp [vmstatFields]

lemma vmstatFields_pgfault : vmstatFields "pgfault" = some .pageflt := by
  simp [vmstatFields]

lemma vmstatFields_pgmajfault :
    vmstatFields "pgmajfault" = some .majflt := by
  simp [vmstatFields]

/-- Evaluation of one `_get_vmstat` iteration on a tracked,
integer-valued line under a nonzero interval: the previous value
becomes the old current value (or bootstraps to the new value on the
first sample), the current value becomes the parsed value, and the
truncated rate is stored. -/
lemma vmstatLine_num_eval (interval : ℚ) (vm : VmSt) (mem : MemSt)
    (key : String) (name : Counter) (v : ℤ)
    (hf : vmstatFields key = some name) (hI : interval ≠ 0) :
    vmstatLine interval (vm, mem) (.kv key (.num v)) =
      ((((vm.setPrev name (vm.cur name)).setCur name (some v)).setPrev
          name (some ((vm.cur name).getD v)),
        mem.setRate name
          (pytrunc (((v : ℚ) - (((vm.cur name).getD v : ℤ) : ℚ)) /
            interval))), none) := by
  cases hc : vm.cur name with
  | none => simp [vmstatLine, hf, pyint, pydiv, hI, hc]
  | some p0 => simp [vmstatLine, hf, pyint, pydiv, hI, hc]

/-- Running the `_get_vmstat` loop over the canonical vmstat content
with a nonzero interval: no exception, every tracked counter's current
value is replaced by the sampled one, its previous value ends at the
old current value (bootstrapped to the sampled value on a first
sample), and its reported rate is the truncated quotient of the delta
by the interval. -/
lemma vmstatFile_run (interval : ℚ) (vm : VmSt) (mem : MemSt)
    (a b c d : ℤ) (hI : interval ≠ 0) :
    (vmstatLines interval (vmstatFile a b c d) (vm, mem)).2 = none ∧
    ∀ cnt,
      ((vmstatLines interval (vmstatFile a b c d) (vm, mem)).1.1.cur
          cnt = some (counterVal a b c d cnt) ∧
        (vmstatLines interval (vmstatFile a b c d) (vm, mem)).1.1.prev
          cnt = some ((vm.cur cnt).getD (counterVal a b c d cnt)) ∧
        (vmstatLines interval (vmstatFile a b c d) (vm, mem)).1.2.rate
          cnt =
          pytrunc (((counterVal a b c d cnt : ℤ) -
            (((vm.cur cnt).getD (counterVal a b c d cnt) : ℤ) : ℚ)) /
            interval)) := by
  have h1 := fun (vm' : VmSt) (mem' : MemSt) (v : ℤ) =>
    vmstatLine_num_eval interval vm' mem' "pswpin" .swap_in v
      vmstatFields_pswpin hI
  have h2 := fun (vm' : VmSt) (mem' : MemSt) (v : ℤ) =>
    vmstatLine_num_eval interval vm' mem' "pswpout" .swap_out v
      vmstatFields_pswpout hI
  have h3 := fun (vm' : VmSt) (mem' : MemSt) (v : ℤ) =>
    vmstatLine_num_eval interval vm' mem' "pgfault" .pageflt v
      vmstatFields_pgfault hI
  have h4 := fun (vm' : VmSt) (mem' : MemSt) (v : ℤ) =>
    vmstatLine_num_eval interval vm' mem' "pgmajfault" .majflt v
      vmstatFields_pgmajfault hI
  constructor
  · simp only [vmstatFile, vmstatLines, h1, h2, h3, h4]
  · intro cnt
    cases cnt <;>
      simp [vmstatFile, vmstatLines, h1, h2, h3, h4, counterVal]

/-- C1: a memory-stats sample over the canonical vmstat content with a
positive elapsed interval raises nothing, advances the stored previous
timestamp, and for every tracked counter: the stored current value
becomes the sampled value; on the first sample for that counter the
reported rate is `0` and the sampled value is recorded as previous;
otherwise the reported rate is `floor((current - previous)/interval)`
and the previous sample's value is the one the quotient is taken
against (monotone counters: the sampled value is at least the stored
one). -/
theorem sampleOnce_counter_rates (now : ℚ) (vm : VmSt) (mem : MemSt)
    (a b c d : ℤ) (hlt : vm.ts_prev < now)
    (hmono : ∀ cnt p, vm.cur cnt = some p → p ≤ counterVal a b c d cnt) :
    (sampleOnce now vm mem a b c d).err = none ∧
    (sampleOnce now vm mem a b c d).vm.ts_prev = now ∧
    ∀ cnt,
      ((sampleOnce now vm mem a b c d).vm.cur cnt =
          some (counterVal a b c d cnt) ∧
        (vm.cur cnt = none →
          (sampleOnce now vm mem a b c d).mem.rate cnt = 0 ∧
          (sampleOnce now vm mem a b c d).vm.prev cnt =
            some (counterVal a b c d cnt)) ∧
        (∀ p, vm.cur cnt = some p →
          (sampleOnce now vm mem a b c d).mem.rate cnt =
            ⌊(((counterVal a b c d cnt : ℤ) : ℚ) - (p : ℚ)) /
              (now - vm.ts_prev)⌋ ∧
          (sampleOnce now vm mem a b c d).vm.prev cnt = some p)) := by
  have hpos : (0 : ℚ) < now - vm.ts_prev := sub_pos.mpr hlt
  have hI : (now - vm.ts_prev) ≠ 0 := ne_of_gt hpos
  have hrun := vmstatFile_run (now - vm.ts_prev)
    { vm with ts_cur := now, ts_prev := now } mem a b c d hI
  have hts := (vmstatLines_ts (now - vm.ts_prev) (vmstatFile a b c d)
    ({ vm with ts_cur := now, ts_prev := now }, mem)).1
  simp only [sampleOnce]
  rw [get_vmstat_ok]
  refine ⟨hrun.1, by simpa using hts, ?_⟩
  intro cnt
  obtain ⟨hcur, hprev, hrate⟩ := hrun.2 cnt
  refine ⟨by simpa using hcur, ?_, ?_⟩
  · intro hc
    simp only [show VmSt.cur { vm with ts_cur := now, ts_prev := now } =
        vm.cur from rfl, hc, Option.getD_none] at hprev hrate
    refine ⟨?_, by simpa using hprev⟩
    rw [show VmResult.mem ⟨_, _, _⟩ = _ from rfl]
    rw [hrate]
    simp [pytrunc]
  · intro p hp
    have hle : (p : ℚ) ≤ ((counterVal a b c d cnt : ℤ) : ℚ) :=
      Int.cast_le.mpr (hmono cnt p hp)
    simp only [show VmSt.cur { vm with ts_cur := now, ts_prev := now } =
        vm.cur from rfl, hp, Option.getD_some] at hprev hrate
    refine ⟨?_, by simpa using hprev⟩
    rw [show VmResult.mem ⟨_, _, _⟩ = _ from rfl]
    rw [hrate]
    exact pytrunc_of_nonneg (div_nonneg (sub_nonneg.mpr hle) hpos.le)

/-- Witness for C1 at a concrete input: previous sample one second ago
with every counter stored at `0`, new sample at time `3` with every raw
counter at `8`. -/
theorem sampleOnce_counter_rates_witness :
    (sampleOnce 3 vm0 mem0 8 8 8 8).err = none ∧
    (sampleOnce 3 vm0 mem0 8 8 8 8).vm.ts_prev = 3 ∧
    ∀ cnt,
      ((sampleOnce 3 vm0 mem0 8 8 8 8).vm.cur cnt =
          some (counterVal 8 8 8 8 cnt) ∧
        (vm0.cur cnt = none →
          (sampleOnce 3 vm0 mem0 8 8 8 8).mem.rate cnt = 0 ∧
          (sampleOnce 3 vm0 mem0 8 8 8 8).vm.prev cnt =
            some (counterVal 8 8 8 8 cnt)) ∧
        (∀ p, vm0.cur cnt = some p →
          (sampleOnce 3 vm0 mem0 8 8 8 8).mem.rate cnt =
            ⌊(((counterVal 8 8 8 8 cnt : ℤ) : ℚ) - (p : ℚ)) /
              (3 - vm0.ts_prev)⌋ ∧
          (sampleOnce 3 vm0 mem0 8 8 8 8).vm.prev cnt = some p)) :=
  sampleOnce_counter_rates 3 vm0 mem0 8 8 8 8 (by norm_num [vm0])
    (by
      intro cnt p hp
      simp only [vm0, Option.some.injEq] at hp
      cases cnt <;> simp [counterVal] <;> omega)

/-! Package inventory (`PkgMgr`). -/

/-- Python `str.split()` with no argument: split on runs of whitespace,
dropping empty words.  `w` accumulates the current word reversed. -/
def pySplitAux : List Char → List Char → List String
  | [], w => if w = [] then [] else [String.mk w.reverse]
  | ch :: cs, w =>
    if ch.isWhitespace then
      if w = [] then pySplitAux cs []
      else String.mk w.reverse :: pySplitAux cs []
    else pySplitAux cs (ch :: w)

/-- Python `str.split()`. -/
def pySplit (s : String) : List String := pySplitAux s.data []

/-- Python `set.add`: sets of strings are modelled as duplicate-free
lists in insertion order. -/
def setAdd (l : List String) (s : String) : List String :=
  if s ∈ l then l else l ++ [s]

/-- Python `set.update`. -/
def setUpdate (l : List String) (other : List String) : List String :=
  other.foldl setAdd l

/-- One installed-package header of the rpm database. -/
structure RpmPkg where
  name : String
  version : String
  release : String

/-- `ts.dbMatch('name', name)`: the db headers whose name matches. -/
def dbMatch (db : List RpmPkg) (name : String) : List RpmPkg :=
  db.filter fun p => p.name = name

/-- `PkgMgr.rpm_list_packages`: for each requested name, add
`"%s-%s-%s" % (name, version, release)` for every matching header. -/
def rpm_list_packages (db : List RpmPkg) (app_list : String) :
    List String :=
  (pySplit app_list).foldl
    (fun apps name =>
      (dbMatch db name).foldl
        (fun apps app =>
          setAdd apps (app.name ++ "-" ++ app.version ++ "-" ++
            app.release))
        apps)
    []

/-- A provider entry of `pkg.provides_list` (each triple's third
component), seen through its `parent_pkg`. -/
structure AptProvider where
  parent_state : ℤ
  parent_ver_str : String

/-- One package record of the apt cache. -/
structure AptPkg where
  current_state : ℤ
  current_ver_str : String
  provides_list : List AptProvider

/-- The apt backend environment: the cache and the library constant
`apt_pkg.CURSTATE_INSTALLED`. -/
structure AptEnv where
  cache : String → Option AptPkg
  CURSTATE_INSTALLED : ℤ

/-- `PkgMgr.apt_list_packages`: a direct entry in installed state is
formatted `name-version`; otherwise, if the entry has providers, one
`name-version` record is added for every provider whose parent package
is installed. -/
def apt_list_packages (env : AptEnv) (app_list : String) :
    List String :=
  (pySplit app_list).foldl
    (fun apps app =>
      match env.cache app with
      | none => apps
      | some pkg =>
        if pkg.current_state = env.CURSTATE_INSTALLED then
          setAdd apps (app ++ "-" ++ pkg.current_ver_str)
        else if 0 < pkg.provides_list.length then
          pkg.provides_list.foldl
            (fun apps pr =>
              if pr.parent_state = env.CURSTATE_INSTALLED then
                setAdd apps (app ++ "-" ++ pr.parent_ver_str)
              else apps)
            apps
        else apps)
    []

/-- The `PkgMgr` object after `__init__`: each backend module either
imported or absent. -/
structure PkgMgr where
  rpm : Option (List RpmPkg)
  apt_pkg : Option AptEnv

/-- `PkgMgr.list_pkgs`: union the results of whichever backends are
present into one set, starting from the empty set. -/
def list_pkgs (pm : PkgMgr) (app_list : String) : List String :=
  let apps : List String := []
  let apps := match pm.rpm with
    | some db => setUpdate apps (rpm_list_packages db app_list)
    | none => apps
  match pm.apt_pkg with
  | some env => setUpdate apps (apt_list_packages env app_list)
  | none => apps

/-! Network interface enumeration (`NicMgr`). -/

/-- The Linux `IFF_UP` flag bit exposed by the ethtool module. -/
def IFF_UP : ℕ := 1

/-- The Linux `IFF_LOOPBACK` flag bit exposed by the ethtool module. -/
def IFF_LOOPBACK : ℕ := 8

/-- What the ethtool backend reports for one device: its name, flag
word, first `get_interfaces_info` entry (richer IPv4 accessor when
available, legacy single address field otherwise, and the IPv6
addresses) and hardware address. -/
structure EthDev where
  name : String
  flags : ℕ
  has_richer_ipv4 : Bool
  ipv4_list : List String
  ipv4_address : Option String
  ipv6_list : List String
  hw : String
  deriving DecidableEq, Repr

/-- `NicMgr._get_ipv4_addresses`: the richer accessor when present,
else the single legacy address field, else no address. -/
def get_ipv4_addresses (dev : EthDev) : List String :=
  if dev.has_richer_ipv4 then dev.ipv4_list
  else
    match dev.ipv4_address with
    | some a => [a]
    | none => []

/-- `NicMgr._get_ipv6_addresses`. -/
def get_ipv6_addresses (dev : EthDev) : List String := dev.ipv6_list

/-- One reported interface record. -/
structure Interface where
  name : String
  inet : List String
  inet6 : List String
  hw : String
  deriving DecidableEq, Repr

/-- The dictionary appended for an accepted device. -/
def mkInterface (dev : EthDev) : Interface :=
  { name := dev.name, inet := get_ipv4_addresses dev,
    inet6 := get_ipv6_addresses dev, hw := dev.hw }

/-- The filter of `ethtool_list_nics`:
`flags & IFF_UP and not (flags & IFF_LOOPBACK)`. -/
def nicAccepted (dev : EthDev) : Bool :=
  (dev.flags.land IFF_UP != 0) && (dev.flags.land IFF_LOOPBACK == 0)

/-- Insertion into a name-sorted interface list (an element with an
equal name goes after the existing ones, as in Python's stable
sort). -/
def insertByName (i : Interface) : List Interface → List Interface
  | [] => [i]
  | j :: rest =>
    if i.name < j.name then i :: j :: rest else j :: insertByName i rest

/-- `interfaces.sort(lambda x, y: cmp(x['name'], y['name']))`. -/
def sortByName (l : List Interface) : List Interface :=
  l.foldr insertByName []

/-- `NicMgr.ethtool_list_nics` on a successful enumeration: keep the
administratively-up, non-loopback devices in device order, build their
records, and sort the result ascending by interface name. -/
def ethtool_list_nics (devs : List EthDev) : List Interface :=
  sortByName ((devs.filter fun dev => nicAccepted dev).map mkInterface)

/-! Command dispatcher (`CommandHandlerLinux`). -/

/-- An external-process launcher: `subprocess.call` either returns the
child's exit status, or raises (`OSError` when the executable cannot be
started). -/
def Launcher : Type := List String → Except PyErr ℤ

/-- `CommandHandlerLinux.shutdown`'s argument vector: the delay in
minutes is `(int(timeout) + 59) / 60` (Python 2 floor division), the
flag is `-r` for reboot and `-h` otherwise, and the message is wrapped
in double quotes. -/
def shutdown_cmd (timeout : ℕ) (msg : String) (reboot : Bool) :
    List String :=
  ["/usr/share/ovirt-guest-agent/ovirt-shutdown",
   if reboot then "-r" else "-h",
   "+" ++ toString ((timeout + 59) / 60),
   "\"" ++ msg ++ "\""]

/-- `CommandHandlerLinux.lock_screen`: launch the helper, ignore its
exit status; a launcher exception propagates unhandled. -/
def lock_screen (launch : Launcher) : Except PyErr Unit :=
  match launch ["/usr/share/ovirt-guest-agent/ovirt-locksession"] with
  | .error e => .error e
  | .ok _ => .ok ()

/-- `CommandHandlerLinux.shutdown`: launch the helper with the built
argument vector, ignore its exit status; a launcher exception
propagates unhandled. -/
def shutdown (launch : Launcher) (timeout : ℕ) (msg : String)
    (reboot : Bool) : Except PyErr Unit :=
  match launch (shutdown_cmd timeout msg reboot) with
  | .error e => .error e
  | .ok _ => .ok ()

/-- `CommandHandlerLinux.hibernate`: launch the helper with the state
argument, ignore its exit status; a launcher exception propagates
unhandled. -/
def hibernate (launch : Launcher) (state : String) :
    Except PyErr Unit :=
  match launch ["/usr/share/ovirt-guest-agent/ovirt-hibernate",
      state] with
  | .error e => .error e
  | .ok _ => .ok ()

/-! Disk usage (`LinuxDataRetriver.getDisksUsage`). -/

/-- The result of `os.statvfs`. -/
structure StatVfs where
  f_bsize : ℤ
  f_blocks : ℤ
  f_bfree : ℤ

/-- The environment of `getDisksUsage`: the attempt to open and read
`/proc/mounts` (each line already split into tokens), the
`"string-escape"` decoder, and `os.statvfs`. -/
structure DiskEnv where
  mounts : Except PyErr (List (List String))
  unescape : String → String
  statvfs : String → Except PyErr StatVfs

/-- One reported mount entry. -/
structure DiskUsage where
  path : String
  fs : String
  total : ℤ
  used : ℤ
  deriving DecidableEq, Repr

/-- One iteration of the `getDisksUsage` loop under its inner bare
`except`: a line with fewer than three tokens (tuple unpacking raises)
or a failing `statvfs` is logged and skipped; an ignored filesystem
type is filtered out. -/
def diskLine (env : DiskEnv) (ignored_fs : List String)
    (usages : List DiskUsage) (mnt : List String) : List DiskUsage :=
  match mnt with
  | _ :: path :: fs :: _ =>
    if fs ∉ ignored_fs then
      match env.statvfs (env.unescape path) with
      | .error _ => usages
      | .ok s =>
        let entry : DiskUsage :=
          { path := env.unescape path, fs := fs,
            total := s.f_bsize * s.f_blocks,
            used := s.f_bsize * s.f_blocks - s.f_bsize * s.f_bfree }
        usages ++ [entry]
    else usages
  | _ => usages

/-- `LinuxDataRetriver.getDisksUsage`.  When the mount table cannot be
opened, the outer `except Exception` handler runs `if mounts:` on the
local variable `mounts` that was never assigned, so the handler itself
raises `UnboundLocalError`, which escapes the method. -/
def getDisksUsage (env : DiskEnv) (ignored_fs : List String) :
    Except PyErr (List DiskUsage) :=
  match env.mounts with
  | .error _ => .error .unboundLocalError
  | .ok lines => .ok (lines.foldl (diskLine env ignored_fs) [])

/-! Set semantics of the package folds. -/

lemma mem_setAdd (l : List String) (s x : String) :
    x ∈ setAdd l s ↔ x ∈ l ∨ x = s := by
  unfold setAdd
  by_cases h : s ∈ l
  · simp only [if_pos h]
    constructor
    · exact Or.inl
    · rintro (hx | rfl)
      · exact hx
      · exact h
  · simp [if_neg h]

lemma setAdd_nodup (l : List String) (s : String) (h : l.Nodup) :
    (setAdd l s).Nodup := by
  unfold setAdd
  by_cases hs : s ∈ l
  · simpa [if_pos hs] using h
  · simp [if_neg hs, List.nodup_append, h, hs]

lemma mem_setUpdate :
    ∀ (other l : List String) (x : String),
      x ∈ setUpdate l other ↔ x ∈ l ∨ x ∈ other
  | [], l, x => by simp [setUpdate]
  | s :: rest, l, x => by
    have ih := mem_setUpdate rest (setAdd l s) x
    simp only [setUpdate, List.foldl_cons] at ih ⊢
    rw [ih, mem_setAdd]
    simp only [List.mem_cons]
    tauto

lemma setUpdate_nodup :
    ∀ (other l : List String), l.Nodup → (setUpdate l other).Nodup
  | [], _, h => h
  | s :: rest, l, h => by
    have ih := setUpdate_nodup rest (setAdd l s) (setAdd_nodup l s h)
    simpa [setUpdate] using ih

/-- C5: `list_pkgs` returns a duplicate-free collection whose members
are exactly the records of whichever backends are present, and the
empty collection when neither backend is present. -/
theorem list_pkgs_dedup_union (pm : PkgMgr) (app_list : String) :
    (list_pkgs pm app_list).Nodup ∧
    (∀ s, s ∈ list_pkgs pm app_list ↔
      ((∃ db, pm.rpm = some db ∧ s ∈ rpm_list_packages db app_list) ∨
        (∃ env, pm.apt_pkg = some env ∧
          s ∈ apt_list_packages env app_list))) ∧
    (pm.rpm = none → pm.apt_pkg = none → list_pkgs pm app_list = []) := by
  obtain ⟨rpmo, apto⟩ := pm
  cases rpmo with
  | none =>
    cases apto with
    | none => exact ⟨List.nodup_nil, by simp [list_pkgs], fun _ _ => rfl⟩
    | some env =>
      refine ⟨setUpdate_nodup _ _ List.nodup_nil, ?_, ?_⟩
      · intro s
        simp [list_pkgs, mem_setUpdate]
      · intro _ h
        exact absurd h (by simp)
  | some db =>
    cases apto with
    | none =>
      refine ⟨setUpdate_nodup _ _ List.nodup_nil, ?_, ?_⟩
      · intro s
        simp [list_pkgs, mem_setUpdate]
      · intro h
        exact absurd h (by simp)
    | some env =>
      refine ⟨setUpdate_nodup _ _ (setUpdate_nodup _ _ List.nodup_nil),
        ?_, ?_⟩
      · intro s
        simp [list_pkgs, mem_setUpdate]
      · intro h
        exact absurd h (by simp)

lemma mem_providersFold (env : AptEnv) (app : String) :
    ∀ (prs : List AptProvider) (acc : List String) (x : String),
      (x ∈ prs.foldl
          (fun apps pr =>
            if pr.parent_state = env.CURSTATE_INSTALLED then
              setAdd apps (app ++ "-" ++ pr.parent_ver_str)
            else apps) acc ↔
        x ∈ acc ∨ ∃ pr ∈ prs,
          pr.parent_state = env.CURSTATE_INSTALLED ∧
          x = app ++ "-" ++ pr.parent_ver_str)
  | [], acc, x => by simp
  | pr :: rest, acc, x => by
    have ih := mem_providersFold env app rest
      (if pr.parent_state = env.CURSTATE_INSTALLED then
        setAdd acc (app ++ "-" ++ pr.parent_ver_str)
      else acc) x
    simp only [List.foldl_cons] at ih ⊢
    rw [ih]
    by_cases h : pr.parent_state = env.CURSTATE_INSTALLED
    · rw [if_pos h, mem_setAdd]
      simp only [List.mem_cons]
      constructor
      · rintro ((hx | rfl) | ⟨q, hq, hqi, rfl⟩)
        · exact Or.inl hx
        · exact Or.inr ⟨pr, Or.inl rfl, h, rfl⟩
        · exact Or.inr ⟨q, Or.inr hq, hqi, rfl⟩
      · rintro (hx | ⟨q, (rfl | hq), hqi, rfl⟩)
        · exact Or.inl (Or.inl hx)
        · exact Or.inl (Or.inr rfl)
        · exact Or.inr ⟨q, hq, hqi, rfl⟩
    · rw [if_neg h]
      simp only [List.mem_cons]
      constructor
      · rintro (hx | ⟨q, hq, hqi, rfl⟩)
        · exact Or.inl hx
        · exact Or.inr ⟨q, Or.inr hq, hqi, rfl⟩
      · rintro (hx | ⟨q, (rfl | hq), hqi, rfl⟩)
        · exact Or.inl hx
        · exact absurd hqi h
        · exact Or.inr ⟨q, hq, hqi, rfl⟩

lemma providersFold_nodup (env : AptEnv) (app : String) :
    ∀ (prs : List AptProvider) (acc : List String), acc.Nodup →
      (prs.foldl
        (fun apps pr =>
          if pr.parent_state = env.CURSTATE_INSTALLED then
            setAdd apps (app ++ "-" ++ pr.parent_ver_str)
          else apps) acc).Nodup
  | [], _, h => h
  | pr :: rest, acc, h => by
    simp only [List.foldl_cons]
    apply providersFold_nodup env app rest
    by_cases hc : pr.parent_state = env.CURSTATE_INSTALLED
    · simpa [hc] using setAdd_nodup acc _ h
    · simpa [hc] using h

/-- An installed provider of the virtual test package, version 1.0. -/
def provA : AptProvider := { parent_state := 1, parent_ver_str := "1.0" }

/-- An installed provider of the virtual test package, version 2.0. -/
def provB : AptProvider := { parent_state := 1, parent_ver_str := "2.0" }

/-- A virtual package: not in installed state itself, two installed
providers with distinct versions. -/
def vpkgRec : AptPkg :=
  { current_state := 0, current_ver_str := "", provides_list := [provA, provB] }

/-- An apt environment whose cache holds only the virtual package. -/
def aptCex : AptEnv :=
  { cache := fun s => if s = "vpkg" then some vpkgRec else none,
    CURSTATE_INSTALLED := 1 }

/-- C6, counterexample to the claim as stated: a virtual package with
two installed providers (versions 1.0 and 2.0) yields two records, not
exactly one record for the first installed provider. -/
theorem apt_virtual_reports_every_installed_provider :
    apt_list_packages aptCex "vpkg" = ["vpkg-1.0", "vpkg-2.0"] ∧
    (apt_list_packages aptCex "vpkg").length = 2 := by
  constructor <;> decide

/-- C6, amended: for a requested name that denotes a virtual package
with no direct installed entry, the apt backend reports one
`name-version` record for every provider whose parent package is
installed (deduplicated by the formatted string), not only for the
first one. -/
theorem apt_virtual_resolves_installed_providers (env : AptEnv)
    (app : String) (pkg : AptPkg) (happ : pySplit app = [app])
    (hc : env.cache app = some pkg)
    (hni : pkg.current_state ≠ env.CURSTATE_INSTALLED)
    (hpr : 0 < pkg.provides_list.length) :
    (apt_list_packages env app).Nodup ∧
    ∀ s, (s ∈ apt_list_packages env app ↔
      ∃ pr ∈ pkg.provides_list,
        pr.parent_state = env.CURSTATE_INSTALLED ∧
        s = app ++ "-" ++ pr.parent_ver_str) := by
  have hred : apt_list_packages env app =
      pkg.provides_list.foldl
        (fun apps pr =>
          if pr.parent_state = env.CURSTATE_INSTALLED then
            setAdd apps (app ++ "-" ++ pr.parent_ver_str)
          else apps) [] := by
    simp [apt_list_packages, happ, hc, hni, hpr]
  rw [hred]
  refine ⟨providersFold_nodup env app _ [] List.nodup_nil, ?_⟩
  intro s
  rw [mem_providersFold]
  simp

/-- Witness for the amended C6 theorem at the concrete virtual-package
environment. -/
theorem apt_virtual_resolves_installed_providers_witness :
    (apt_list_packages aptCex "vpkg").Nodup ∧
    ∀ s, (s ∈ apt_list_packages aptCex "vpkg" ↔
      ∃ pr ∈ vpkgRec.provides_list,
        pr.parent_state = aptCex.CURSTATE_INSTALLED ∧
        s = "vpkg" ++ "-" ++ pr.parent_ver_str) :=
  apt_virtual_resolves_installed_providers aptCex "vpkg" vpkgRec
    (by decide) rfl (by decide) (by decide)

/-! Sorting lemmas for the interface list. -/

lemma perm_insertByName (i : Interface) :
    ∀ (l : List Interface), List.Perm (insertByName i l) (i :: l)
  | [] => List.Perm.refl _
  | j :: rest => by
    unfold insertByName
    by_cases h : i.name < j.name
    · rw [if_pos h]
    · rw [if_neg h]
      exact ((perm_insertByName i rest).cons j).trans
        (List.Perm.swap i j rest)

lemma sortByName_perm :
    ∀ (l : List Interface), List.Perm (sortByName l) l
  | [] => List.Perm.refl _
  | i :: rest => by
    simp only [sortByName, List.foldr_cons]
    exact (perm_insertByName _ _).trans ((sortByName_perm rest).cons i)

lemma sorted_insertByName (i : Interface) :
    ∀ (l : List Interface),
      l.Pairwise (fun x y => x.name ≤ y.name) →
      (insertByName i l).Pairwise (fun x y => x.name ≤ y.name)
  | [], _ => by simp [insertByName]
  | j :: rest, h => by
    unfold insertByName
    by_cases hlt : i.name < j.name
    · rw [if_pos hlt]
      refine List.Pairwise.cons ?_ h
      intro b hb
      rcases List.mem_cons.mp hb with rfl | hbr
      · exact le_of_lt hlt
      · exact le_trans (le_of_lt hlt) (List.rel_of_pairwise_cons h hbr)
    · rw [if_neg hlt]
      refine List.Pairwise.cons ?_
        (sorted_insertByName i rest (List.Pairwise.of_cons h))
      intro b hb
      rcases List.mem_cons.mp ((perm_insertByName i rest).mem_iff.mp hb)
          with rfl | hbr
      · exact le_of_not_lt hlt
      · exact List.rel_of_pairwise_cons h hbr

lemma sortByName_sorted :
    ∀ (l : List Interface),
      (sortByName l).Pairwise (fun x y => x.name ≤ y.name)
  | [] => List.Pairwise.nil
  | i :: rest => by
    simp only [sortByName, List.foldr_cons]
    exact sorted_insertByName i _ (sortByName_sorted rest)

/-- An up, non-loopback device named `eth0` (richer IPv4 accessor). -/
def ethDev0 : EthDev :=
  { name := "eth0", flags := 1, has_richer_ipv4 := true,
    ipv4_list := ["10.0.0.2"], ipv4_address := none,
    ipv6_list := ["fe80::2"], hw := "aa:bb:cc:dd:ee:02" }

/-- An up, non-loopback device named `eth1` (legacy IPv4 field only). -/
def ethDev1 : EthDev :=
  { name := "eth1", flags := 1, has_richer_ipv4 := false,
    ipv4_list := [], ipv4_address := some "10.0.0.3",
    ipv6_list := [], hw := "aa:bb:cc:dd:ee:03" }

/-- The loopback device, up (`IFF_UP ||| IFF_LOOPBACK = 9`). -/
def loDev : EthDev :=
  { name := "lo", flags := 9, has_richer_ipv4 := true,
    ipv4_list := ["127.0.0.1"], ipv4_address := none,
    ipv6_list := ["::1"], hw := "00:00:00:00:00:00" }

/-- C7: `ethtool_list_nics` returns a sequence sorted ascending by
interface name whose members are exactly the records of the devices
that are administratively up and not loopback; in particular the
device set `{eth1(up), eth0(up), lo(up)}` yields `[eth0, eth1]`. -/
theorem ethtool_list_nics_spec (devs : List EthDev) :
    (ethtool_list_nics devs).Pairwise (fun x y => x.name ≤ y.name) ∧
    (∀ i, i ∈ ethtool_list_nics devs ↔
      ∃ dev ∈ devs, nicAccepted dev ∧ i = mkInterface dev) ∧
    ethtool_list_nics [ethDev1, ethDev0, loDev] =
      [mkInterface ethDev0, mkInterface ethDev1] := by
  refine ⟨sortByName_sorted _, ?_, ?_⟩
  · intro i
    rw [ethtool_list_nics, (sortByName_perm _).mem_iff]
    simp only [List.mem_map, List.mem_filter]
    constructor
    · rintro ⟨dev, ⟨hdev, hacc⟩, rfl⟩
      exact ⟨dev, hdev, hacc, rfl⟩
    · rintro ⟨dev, hdev, hacc, rfl⟩
      exact ⟨dev, ⟨hdev, hacc⟩, rfl⟩
  · have hacc1 : nicAccepted ethDev1 = true := by decide
    have hacc0 : nicAccepted ethDev0 = true := by decide
    have hacclo : nicAccepted loDev = false := by decide
    have hlt : ¬ (("eth1" : String) < "eth0") := by
      rw [String.lt_iff_toList_lt]
      decide
    have hname0 : ethDev0.name = "eth0" := rfl
    have hname1 : ethDev1.name = "eth1" := rfl
    have hmkname : ∀ dev : EthDev, (mkInterface dev).name = dev.name :=
      fun _ => rfl
    simp [ethtool_list_nics, hacc1, hacc0, hacclo, sortByName,
      insertByName, hmkname, hname0, hname1, hlt]

/-! Command dispatcher theorems. -/

/-- C8: the shutdown command invokes the shutdown utility with `-r`
when rebooting and `-h` otherwise, the quoted message, and delay
argument `+d` where `d` is exactly the ceiling of `timeout/60`
minutes (both as the least number of whole minutes covering the
timeout, and as `⌈timeout/60⌉` over the rationals); in particular
timeout `61` gives `+2` and timeout `60` gives `+1`. -/
theorem shutdown_cmd_spec (timeout : ℕ) (msg : String) (reboot : Bool) :
    (shutdown_cmd timeout msg reboot =
      ["/usr/share/ovirt-guest-agent/ovirt-shutdown",
       if reboot then "-r" else "-h",
       "+" ++ toString ((timeout + 59) / 60),
       "\"" ++ msg ++ "\""] ∧
      timeout ≤ 60 * ((timeout + 59) / 60) ∧
      (∀ d', timeout ≤ 60 * d' → (timeout + 59) / 60 ≤ d') ∧
      ((((timeout + 59) / 60 : ℕ) : ℤ) = ⌈(timeout : ℚ) / 60⌉)) ∧
    shutdown_cmd 61 msg false =
      ["/usr/share/ovirt-guest-agent/ovirt-shutdown", "-h", "+2",
       "\"" ++ msg ++ "\""] ∧
    shutdown_cmd 60 msg false =
      ["/usr/share/ovirt-guest-agent/ovirt-shutdown", "-h", "+1",
       "\"" ++ msg ++ "\""] := by
  refine ⟨⟨rfl, by omega, fun d' h => by omega, ?_⟩, rfl, rfl⟩
  have h60 : (0 : ℚ) < 60 := by norm_num
  rw [eq_comm, Int.ceil_eq_iff]
  constructor
  · rw [lt_div_iff₀ h60]
    have h1z : (60 : ℤ) * (((timeout : ℤ) + 59) / 60) <
        (timeout : ℤ) + 60 := by omega
    have h1q : (60 : ℚ) * ((((timeout : ℤ) + 59) / 60 : ℤ) : ℚ) <
        (timeout : ℚ) + 60 := by exact_mod_cast h1z
    push_cast
    linarith
  · rw [div_le_iff₀ h60]
    have h2z : (timeout : ℤ) ≤ 60 * (((timeout : ℤ) + 59) / 60) := by
      omega
    have h2q : (timeout : ℚ) ≤
        60 * ((((timeout : ℤ) + 59) / 60 : ℤ) : ℚ) := by
      exact_mod_cast h2z
    push_cast
    linarith

/-- A launcher that always fails to start the process (`OSError`, e.g.
the helper executable is absent). -/
def failLaunch : Launcher := fun _ => .error .osError

/-- C9, counterexample to the claim as stated: when the process launch
fails, `lock_screen`, `shutdown` and `hibernate` do not return
normally — the `OSError` escapes each of them to the caller. -/
theorem commands_raise_on_launch_failure :
    lock_screen failLaunch = .error .osError ∧
    shutdown failLaunch 0 "bye" false = .error .osError ∧
    hibernate failLaunch "disk" = .error .osError :=
  ⟨rfl, rfl, rfl⟩

/-- C9, amended: the dispatcher never escalates a nonzero exit status —
whenever the launcher itself returns (whatever the exit code), the
three commands return normally; but a launcher exception (process
could not start) is not caught by the dispatcher. -/
theorem commands_ok_when_launch_returns (launch : Launcher)
    (h : ∀ cmd, ∃ code, launch cmd = .ok code) (timeout : ℕ)
    (msg state : String) (reboot : Bool) :
    lock_screen launch = .ok () ∧
    shutdown launch timeout msg reboot = .ok () ∧
    hibernate launch state = .ok () := by
  obtain ⟨c1, h1⟩ := h ["/usr/share/ovirt-guest-agent/ovirt-locksession"]
  obtain ⟨c2, h2⟩ := h (shutdown_cmd timeout msg reboot)
  obtain ⟨c3, h3⟩ :=
    h ["/usr/share/ovirt-guest-agent/ovirt-hibernate", state]
  refine ⟨?_, ?_, ?_⟩
  · rw [lock_screen, h1]
  · rw [shutdown, h2]
  · rw [hibernate, h3]

/-- Witness for the amended C9 theorem: a launcher that always returns
exit status `1` (nonzero) — all three commands return normally. -/
theorem commands_ok_when_launch_returns_witness :
    lock_screen (fun _ => .ok 1) = .ok () ∧
    shutdown (fun _ => .ok 1) 61 "bye" true = .ok () ∧
    hibernate (fun _ => .ok 1) "disk" = .ok () :=
  commands_ok_when_launch_returns (fun _ => .ok 1)
    (fun _ => ⟨1, rfl⟩) 61 "bye" "disk" true

/-! Disk usage theorems. -/

/-- A disk environment whose mount table cannot be opened. -/
def diskEnvBad : DiskEnv :=
  { mounts := .error .ioError, unescape := fun s => s,
    statvfs := fun _ => .error .osError }

/-- C4: evaluation at the failing input.  With an unreadable mount
table, `getDisksUsage` does not return an empty or partial result: the
`except Exception` handler's `if mounts:` test references the
never-assigned local and the resulting `UnboundLocalError` escapes to
the caller. -/
theorem getDisksUsage_raises_on_unreadable_mounts :
    getDisksUsage diskEnvBad [] = .error .unboundLocalError := rfl

end GuestAgent
